import Mathlib

set_option maxHeartbeats 2000000
set_option maxRecDepth 4000

/-!
Shallow embedding of `scripts/data/prove_pow.py` (the batch proving
orchestrator) and verification of its specification claims.

Modelling conventions:
* Machine strings are Lean `String`; a captured stderr stream is modelled by
  its list of lines (the Python code immediately calls `splitlines()` on it).
* Wall-clock durations (`time.time()` differences) are modelled as rationals
  supplied by the environment.
* An external process invocation is an environment datum (`ProcOutcome`):
  either it times out after some measured elapsed time, or it completes with
  captured stdout, stderr lines, and an exit code.
* Python exceptions are modelled with `Except String`; `RuntimeError` raised
  by `run` on a non-Linux platform becomes `Except.error linuxErrMsg`.
* The file system is a `BatchFS`: the set (list) of existing file paths, the
  ordered list of step-log writes, and the value that `json.load` would
  produce for `priv.json` (`privParse`).
* The `.proofs` directory is a `ProofStore`: whether it exists and its
  directory entries in enumeration order (glob / iterdir order).
-/

namespace ProvePow

/-! ### Basic string helpers (Python `in`, `startswith`, `endswith`, `lower`, joins) -/

/-- Substring occurrence test on character lists: `hasSub hay needle` is true
iff `needle` occurs contiguously inside `hay` (Python's `in` on strings). -/
def hasSub : List Char → List Char → Bool
  | [], needle => needle.isEmpty
  | c :: t, needle => needle.isPrefixOf (c :: t) || hasSub t needle

/-- Python `needle in hay` for strings. -/
def strContains (hay needle : String) : Bool :=
  hasSub hay.data needle.data

/-- Python `s.startswith(p)`. -/
def strStarts (s p : String) : Bool :=
  p.data.isPrefixOf s.data

/-- Python `s.endswith(p)`. -/
def strEnds (s p : String) : Bool :=
  p.data.reverse.isPrefixOf s.data.reverse

/-- Python `s.lower()` (ASCII is all that occurs here). -/
def pyLower (s : String) : String :=
  String.mk (s.data.map Char.toLower)

/-- Python `sep.join(parts)`. -/
def joinWith (sep : String) : List String → String
  | [] => ""
  | [s] => s
  | s :: rest => s ++ sep ++ joinWith sep rest

/-- Split a character list at every occurrence of `c` (used for path parents). -/
def splitOnChar (c : Char) : List Char → List (List Char)
  | [] => [[]]
  | a :: t =>
    match splitOnChar c t with
    | [] => if a = c then [[], []] else [[a]]
    | h :: rs => if a = c then [] :: h :: rs else (a :: h) :: rs

/-- Python `Path(p).parent` for the relative slash-separated paths used here:
drop the last `/`-separated component. -/
def parentDir (p : String) : String :=
  joinWith "/" (((splitOnChar '/' p.data).dropLast).map String.mk)

/-- Decimal digits to a natural number (Python `int(...)` on a digit string). -/
def digitsToNat (ds : List Char) : Nat :=
  ds.foldl (fun a c => a * 10 + (c.toNat - 48)) 0

/-- Strip a literal off the front of a character list, or fail. -/
def dropLit (lit s : List Char) : Option (List Char) :=
  if lit.isPrefixOf s then some (s.drop lit.length) else none

/-! ### Step Runner: `run(cmd, timeout)` (source lines 89–135) -/

/-- Environment datum describing what one external process invocation does:
either `subprocess.run` raises `TimeoutExpired` after a measured wait, or the
process completes with captured stdout, stderr (as its list of lines) and an
exit code.  `elapsed` is the `time.time()` difference the runner measures. -/
inductive ProcOutcome where
  | timeout (elapsed : Rat)
  | completed (stdout : String) (stderrLines : List String) (code : Int) (elapsed : Rat)
  deriving DecidableEq

/-- Exit code the runner reports for an outcome: `-1` on timeout, the process
exit code otherwise. -/
def outRC : ProcOutcome → Int
  | .timeout _ => -1
  | .completed _ _ code _ => code

/-- The 5-tuple returned by `run`. -/
structure RunOut where
  stdout : String
  stderr : String
  returncode : Int
  elapsed : Rat
  max_memory : Option Nat
  deriving DecidableEq

/-- One stderr line is timing/memory diagnostics iff it starts with a tab or
contains one of the fixed `/usr/bin/time -v` markers (source lines 116–127,
in the source's order). -/
def isTimeLine (line : String) : Bool :=
  strStarts line "\t"
    || strContains line "Maximum resident set size"
    || strContains line "Command being timed"
    || strContains line "User time"
    || strContains line "System time"
    || strContains line "Percent of CPU"
    || strContains line "Elapsed (wall clock) time"
    || strContains line "Average"
    || strContains line "Exit status"

/-- The loop of source lines 114–130: walk the stderr lines in order,
appending each to the timing list or to the genuine-stderr list. -/
def splitStderrLines : List String → List String × List String
  | [] => ([], [])
  | l :: rest =>
    let p := splitStderrLines rest
    if isTimeLine l then (l :: p.1, p.2) else (p.1, l :: p.2)

/-- The literal prefix of the `/usr/bin/time -v` memory report line. -/
def memMarker : List Char := "Maximum resident set size (kbytes): ".data

/-- Scan for the first occurrence of the memory-report pattern followed by at
least one digit, and parse the (maximal) digit run — the model of
`re.search(r"Maximum resident set size \(kbytes\): (\d+)", stderr)`. -/
def findMemIn : List Char → Option Nat
  | [] => none
  | c :: t =>
    if memMarker.isPrefixOf (c :: t) then
      let ds := ((c :: t).drop memMarker.length).takeWhile Char.isDigit
      if ds.isEmpty then findMemIn t else some (digitsToNat ds)
    else findMemIn t

/-- `max_memory` extraction from the captured stderr stream. -/
def extractMaxMem (stderrLines : List String) : Option Nat :=
  findMemIn (joinWith "\n" stderrLines).data

/-- Python `f"{timeout}"` where `timeout` is an `int` or `None`. -/
def pyShowOptNat : Option Nat → String
  | some n => toString n
  | none => "None"

/-- What `run` returns once the platform check has passed (source lines
100–135): the timeout branch yields exit code −1, empty stdout and the
synthetic message; the normal branch strips the timing lines out of stderr
and extracts the peak memory. -/
def runOk (outcome : ProcOutcome) (tmo : Option Nat) : RunOut :=
  match outcome with
  | .timeout el =>
    ⟨"", "Process timed out after " ++ pyShowOptNat tmo ++ " seconds", -1, el, none⟩
  | .completed out errLines code el =>
    ⟨out, joinWith "\n" (splitStderrLines errLines).2, code, el, extractMaxMem errLines⟩

/-- The `RuntimeError` message raised on a non-Linux platform (lines 95–98). -/
def linuxErrMsg : String :=
  "This script only supports Linux for timing and memory measurement."

/-- `run(cmd, timeout)`: raises unless the platform is Linux, otherwise
returns the measured 5-tuple.  The command line itself is absorbed into the
`ProcOutcome` environment datum. -/
def run (platformName : String) (outcome : ProcOutcome) (tmo : Option Nat) :
    Except String RunOut :=
  if platformName = "Linux" then Except.ok (runOk outcome tmo) else Except.error linuxErrMsg

/-! ### Pipeline Driver: `run_prover` (source lines 164–300) -/

/-- The dataclass `StepInfo` of source lines 26–33. -/
structure StepInfo where
  step : String
  stdout : String
  stderr : String
  returncode : Int
  elapsed : Rat
  max_memory : Option Nat
  deriving DecidableEq

/-- Package one `run` result as the `StepInfo` appended by `run_prover`. -/
def mkStep (name : String) (r : RunOut) : StepInfo :=
  ⟨name, r.stdout, r.stderr, r.returncode, r.elapsed, r.max_memory⟩

/-- Parsed content of `priv.json` as far as cleanup cares: the optional
`"trace_path"` and `"memory_path"` entries. -/
structure PrivData where
  trace_path : Option String
  memory_path : Option String
  deriving DecidableEq

/-- File-system state seen by one batch: the set (list) of existing file
paths, the ordered list of per-step log files written so far, and the value
that `json.load` would produce for the batch's `priv.json` (`Except.error`
models a parse exception). -/
structure BatchFS where
  files : List String
  logs : List String
  privParse : Except String PrivData

/-- Does path `p` exist? -/
def fileExists (fs : BatchFS) (p : String) : Bool :=
  decide (p ∈ fs.files)

/-- Create (or truncate) a file: membership-wise, ensure the path is present. -/
def addFile (fs : BatchFS) (p : String) : BatchFS :=
  if fileExists fs p then fs else { fs with files := fs.files ++ [p] }

/-- `if temp_file.exists(): temp_file.unlink()` (source lines 294–295). -/
def condRemove (fs : BatchFS) (p : String) : BatchFS :=
  if fileExists fs p then { fs with files := fs.files.filter (fun q => decide (q ≠ p)) }
  else fs

/-- Path of the per-step log file written by `save_prover_log` (line 142). -/
def logName (batch_dir step_name : String) : String :=
  batch_dir ++ "/" ++ pyLower step_name ++ ".log"

/-- `save_prover_log`: writes (creates) the step's log file; we also record
the write in the `logs` journal. -/
def writeLog (fs : BatchFS) (batch_dir step_name : String) : BatchFS :=
  let fsa := addFile fs (logName batch_dir step_name)
  { fsa with logs := fsa.logs ++ [logName batch_dir step_name] }

/-- `pie_file = batch_dir / "pie.cairo_pie.zip"` (line 177). -/
def pie_file (batch_dir : String) : String := batch_dir ++ "/pie.cairo_pie.zip"

/-- `priv_json = batch_dir / "priv.json"` (line 178). -/
def priv_json_file (batch_dir : String) : String := batch_dir ++ "/priv.json"

/-- `pub_json = batch_dir / "pub.json"` (line 179). -/
def pub_json_file (batch_dir : String) : String := batch_dir ++ "/pub.json"

/-- Cleanup on PROVE success (source lines 273–298): start from the pie and
public files; if `priv.json` exists, parsing it adds the recorded trace and
memory paths and then `priv.json` itself (on a parse failure only
`priv.json` is added); each listed file is removed if it exists, and the
helper never fails. -/
def cleanupTemps (fs : BatchFS) (batch_dir : String) : BatchFS :=
  let temps :=
    if fileExists fs (priv_json_file batch_dir) then
      match fs.privParse with
      | Except.ok pd =>
        [pie_file batch_dir, pub_json_file batch_dir] ++ pd.trace_path.toList
          ++ pd.memory_path.toList ++ [priv_json_file batch_dir]
      | Except.error _ => [pie_file batch_dir, pub_json_file batch_dir, priv_json_file batch_dir]
    else [pie_file batch_dir, pub_json_file batch_dir]
  temps.foldl condRemove fs

/-- Environment for one pipeline invocation: the platform name and the
behaviour of the three external commands. -/
structure ProverEnv where
  platformName : String
  pieOutcome : ProcOutcome
  bootloadOutcome : ProcOutcome
  proveOutcome : ProcOutcome

/-- `run_prover(job_info, executable, proof, arguments)` (lines 164–300):
run PIE, BOOTLOAD, PROVE in order, write a log after every executed step,
stop at the first non-zero exit code, and clean up the intermediate
artifacts only when PROVE exits 0.  The pair's first component is the
(exception-carrying) step list, the second the resulting file system. -/
def run_prover (penv : ProverEnv) (proof _arguments : String) (fs : BatchFS) :
    Except String (List StepInfo) × BatchFS :=
  let batch_dir := parentDir proof
  match run penv.platformName penv.pieOutcome none with
  | Except.error e => (Except.error e, fs)
  | Except.ok r1 =>
    let s1 := mkStep "PIE" r1
    let fs1 := writeLog fs batch_dir "PIE"
    if r1.returncode ≠ 0 then (Except.ok [s1], fs1)
    else
      match run penv.platformName penv.bootloadOutcome none with
      | Except.error e => (Except.error e, fs1)
      | Except.ok r2 =>
        let s2 := mkStep "BOOTLOAD" r2
        let fs2 := writeLog fs1 batch_dir "BOOTLOAD"
        if r2.returncode ≠ 0 then (Except.ok [s1, s2], fs2)
        else
          match run penv.platformName penv.proveOutcome none with
          | Except.error e => (Except.error e, fs2)
          | Except.ok r3 =>
            let s3 := mkStep "PROVE" r3
            let fs3 := writeLog fs2 batch_dir "PROVE"
            if r3.returncode = 0 then (Except.ok [s1, s2, s3], cleanupTemps fs3 batch_dir)
            else (Except.ok [s1, s2, s3], fs3)

/-! ### Proof Chain Resolver and Resume Locator (lines 316–323, 429–447) -/

/-- One entry of the `.proofs` directory: its name, whether it is a
directory, and whether `<entry>/proof.json` exists. -/
structure StoreEntry where
  name : String
  isDir : Bool
  hasProof : Bool
  deriving DecidableEq

/-- The `.proofs` directory: whether it exists and its entries in
enumeration order. -/
structure ProofStore where
  dirExists : Bool
  entries : List StoreEntry
  deriving DecidableEq

/-- The fixed tail of the glob pattern `light_*_to_{height}`. -/
def globTail (height : Nat) : String := "_to_" ++ toString height

/-- Does a name match the glob pattern `light_*_to_{height}`?  (`*` matches
any — possibly empty — character run, so a full-name match is: the literal
prefix, the literal suffix, and enough length that they do not overlap.) -/
def globMatch (height : Nat) (name : String) : Bool :=
  strStarts name "light_" && strEnds name (globTail height)
    && decide ("light_".length + (globTail height).length ≤ name.length)

/-- `proof_dir / "proof.json"` as a path under `.proofs`. -/
def proofPathOf (e : StoreEntry) : String :=
  ".proofs/" ++ e.name ++ "/proof.json"

/-- The loop of source lines 320–323: for each matching directory set
`previous_proof_file` to its `proof.json` and stop as soon as that file
exists; the accumulator keeps the last assignment when no candidate's proof
exists. -/
def prevLoop : Option String → List StoreEntry → Option String
  | acc, [] => acc
  | _, e :: rest =>
    if e.hasProof then some (proofPathOf e) else prevLoop (some (proofPathOf e)) rest

/-- The previous-proof resolution of `prove_batch` (lines 317–323):
`None` when `height` is 0, otherwise the loop over the glob matches. -/
def find_previous_proof (store : ProofStore) (height : Nat) : Option String :=
  if 0 < height then
    prevLoop none (store.entries.filter (fun e => globMatch height e.name))
  else none

/-- Prefix match of the regex `light_\d+_to_(\d+)` (`re.match`, line 439):
the literal `light_`, a nonempty digit run, the literal `_to_`, then the
captured maximal nonempty digit run; trailing characters are ignored. -/
def matchLightEnd (dirName : String) : Option Nat :=
  match dropLit "light_".data dirName.data with
  | none => none
  | some r1 =>
    let ds1 := r1.takeWhile Char.isDigit
    if ds1.isEmpty then none
    else
      match dropLit "_to_".data (r1.drop ds1.length) with
      | none => none
      | some r2 =>
        let ds2 := r2.takeWhile Char.isDigit
        if ds2.isEmpty then none else some (digitsToNat ds2)

/-- The body of the `auto_detect_start` loop (lines 437–446) for one entry:
directories whose name matches the pattern and whose `proof.json` exists
bump the running maximum. -/
def adsStep (mx : Nat) (e : StoreEntry) : Nat :=
  if e.isDir then
    match matchLightEnd e.name with
    | some endHeight => if e.hasProof then (if endHeight > mx then endHeight else mx) else mx
    | none => mx
  else mx

/-- `auto_detect_start()` (lines 429–447). -/
def auto_detect_start (store : ProofStore) : Nat :=
  if store.dirExists then store.entries.foldl adsStep 0 else 0

/-! ### Batch Job: `prove_batch` (source lines 303–394) -/

/-- Environment for one batch job: the pipeline environment, the `.proofs`
directory contents seen by the glob, and the behaviour of the external
`generate_data` and `generate_assumevalid_args` calls (their payloads do not
matter to any claim, only success or exception). -/
structure BatchEnv where
  penv : ProverEnv
  store : ProofStore
  gen_data : Except String Unit
  gen_args : Option String → Except String Unit

/-- `PROOF_DIR / f"light_{height}_to_{height + step}"` (lines 312–313). -/
def batchDirName (height bstep : Nat) : String :=
  ".proofs/light_" ++ toString height ++ "_to_" ++ toString (height + bstep)

/-- The body of the `try:` block of `prove_batch` (lines 310–388): resolve
the previous proof, generate and persist the batch data and the argument
file, run the pipeline, and report success iff the last step's exit code is
0.  Exceptions (from `generate_data`, the argument generator, the platform
check inside `run`, or the `steps_info[-1]` indexing) surface as
`Except.error`. -/
def prove_batchFS (env : BatchEnv) (height bstep : Nat) (fs : BatchFS) :
    Except String Bool × BatchFS :=
  let batch_dir := batchDirName height bstep
  let previous_proof_file := find_previous_proof env.store height
  match env.gen_data with
  | Except.error e => (Except.error e, fs)
  | Except.ok _ =>
    let fs1 := addFile fs (batch_dir ++ "/batch.json")
    match env.gen_args previous_proof_file with
    | Except.error e => (Except.error e, fs1)
    | Except.ok _ =>
      let fs2 := addFile fs1 (batch_dir ++ "/arguments.json")
      match run_prover env.penv (batch_dir ++ "/proof.json") (batch_dir ++ "/arguments.json") fs2 with
      | (Except.error e, fs3) => (Except.error e, fs3)
      | (Except.ok steps, fs3) =>
        match steps.getLast? with
        | none => (Except.error "list index out of range", fs3)
        | some lastStep => (Except.ok (decide (lastStep.returncode = 0)), fs3)

/-- `prove_batch(height, step)` (lines 303–394): the `except Exception`
handler at the batch boundary turns every exception from the body into the
boolean `False`; otherwise the body's boolean is returned. -/
def prove_batch (env : BatchEnv) (height bstep : Nat) (fs : BatchFS) : Bool × BatchFS :=
  match prove_batchFS env height bstep fs with
  | (Except.ok b, fs') => (b, fs')
  | (Except.error _, fs') => (false, fs')

/-! ### Orchestrator: `main` (source lines 397–426) -/

/-- Observable outcome of one `main` run: which heights were attempted (in
order), the final value of `processed_count`, the height named by the
failure log (if any), and the success summary message (if produced). -/
structure RunReport where
  attempted : List Nat
  processed : Nat
  failedAt : Option Nat
  summary : Option String
  deriving DecidableEq

/-- The sequential job loop of `main` (lines 418–426), parametrised by what
`prove_batch` returns at each height: on success increment
`processed_count` and continue; on failure log the failing height and
return at once — the summary line is only ever logged after the loop
finishes all heights. -/
def mainLoop (runBatch : Nat → Bool) : List Nat → Nat → RunReport
  | [], cnt =>
    ⟨[], cnt, none, some ("All " ++ toString cnt ++ " jobs have been processed successfully")⟩
  | h :: rest, cnt =>
    if runBatch h then
      let r := mainLoop runBatch rest (cnt + 1)
      ⟨h :: r.attempted, r.processed, r.failedAt, r.summary⟩
    else ⟨[h], cnt, some h, none⟩

/-- Python `range(start, stop, step)` for a positive step. -/
def pyRange (start stop step : Nat) : List Nat :=
  List.range' start ((stop - start + step - 1) / step) step

/-- `main(start, blocks, step)` (lines 397–426): iterate
`range(start, start + blocks, step)` with `processed_count` starting at 0. -/
def mainRun (runBatch : Nat → Bool) (start blocks step : Nat) : RunReport :=
  mainLoop runBatch (pyRange start (start + blocks) step) 0

/-! ### Helper lemmas -/

theorem runOk_returncode (o : ProcOutcome) (t : Option Nat) :
    (runOk o t).returncode = outRC o := by
  cases o <;> rfl

theorem run_linux (o : ProcOutcome) (t : Option Nat) :
    run "Linux" o t = Except.ok (runOk o t) := rfl

theorem run_not_linux (p : String) (o : ProcOutcome) (t : Option Nat) (h : p ≠ "Linux") :
    run p o t = Except.error linuxErrMsg := by
  unfold run
  rw [if_neg h]

theorem mkStep_step (n : String) (r : RunOut) : (mkStep n r).step = n := rfl

theorem mkStep_returncode (n : String) (r : RunOut) :
    (mkStep n r).returncode = r.returncode := rfl

theorem addFile_privParse (fs : BatchFS) (p : String) :
    (addFile fs p).privParse = fs.privParse := by
  unfold addFile
  split <;> rfl

theorem writeLog_privParse (fs : BatchFS) (bd s : String) :
    (writeLog fs bd s).privParse = fs.privParse := by
  unfold writeLog
  exact addFile_privParse fs (logName bd s)

theorem writeLog_logs (fs : BatchFS) (bd s : String) :
    (writeLog fs bd s).logs = fs.logs ++ [logName bd s] := by
  unfold writeLog
  have h : (addFile fs (logName bd s)).logs = fs.logs := by
    unfold addFile
    split <;> rfl
  simp [h]

theorem fileExists_addFile_of (fs : BatchFS) (p x : String)
    (h : fileExists fs x = true) : fileExists (addFile fs p) x = true := by
  unfold addFile
  split
  · exact h
  · unfold fileExists at *
    simp only [decide_eq_true_eq] at *
    exact List.mem_append_left _ h

theorem fileExists_writeLog_of (fs : BatchFS) (bd s x : String)
    (h : fileExists fs x = true) : fileExists (writeLog fs bd s) x = true := by
  unfold writeLog
  exact fileExists_addFile_of fs (logName bd s) x h

theorem fileExists_condRemove (fs : BatchFS) (p x : String) :
    fileExists (condRemove fs p) x = true ↔ fileExists fs x = true ∧ x ≠ p := by
  unfold condRemove
  split
  case isTrue hex =>
    unfold fileExists at *
    simp [List.mem_filter]
  case isFalse hex =>
    constructor
    · intro hx
      refine ⟨hx, ?_⟩
      rintro rfl
      exact hex hx
    · exact fun h => h.1

theorem condRemove_logs (fs : BatchFS) (p : String) :
    (condRemove fs p).logs = fs.logs := by
  unfold condRemove
  split <;> rfl

theorem fileExists_foldl_condRemove (l : List String) (fs : BatchFS) (x : String) :
    fileExists (l.foldl condRemove fs) x = true ↔ fileExists fs x = true ∧ x ∉ l := by
  induction l generalizing fs with
  | nil => simp
  | cons p rest ih =>
    rw [List.foldl_cons, ih]
    rw [fileExists_condRemove]
    simp only [List.mem_cons]
    constructor
    · rintro ⟨⟨hx, hnp⟩, hnr⟩
      exact ⟨hx, fun hc => hc.elim (fun h => hnp h) hnr⟩
    · rintro ⟨hx, hn⟩
      exact ⟨⟨hx, fun h => hn (Or.inl h)⟩, fun h => hn (Or.inr h)⟩

theorem foldl_condRemove_logs (l : List String) (fs : BatchFS) :
    (l.foldl condRemove fs).logs = fs.logs := by
  induction l generalizing fs with
  | nil => rfl
  | cons p rest ih => rw [List.foldl_cons, ih, condRemove_logs]

theorem cleanupTemps_logs (fs : BatchFS) (bd : String) :
    (cleanupTemps fs bd).logs = fs.logs := by
  unfold cleanupTemps
  exact foldl_condRemove_logs _ fs

theorem cleanupTemps_parse_ok (fs : BatchFS) (bd tp mp : String)
    (hpr : fs.privParse = Except.ok ⟨some tp, some mp⟩)
    (hex : fileExists fs (priv_json_file bd) = true) :
    cleanupTemps fs bd =
      [pie_file bd, pub_json_file bd, tp, mp, priv_json_file bd].foldl condRemove fs := by
  unfold cleanupTemps
  rw [hex, hpr]
  simp

theorem splitStderr_snd_eq_filter (ls : List String) :
    (splitStderrLines ls).2 = ls.filter (fun l => !isTimeLine l) := by
  induction ls with
  | nil => rfl
  | cons l rest ih =>
    unfold splitStderrLines
    cases h : isTimeLine l <;> simp [List.filter_cons, h, ih]

theorem run_prover_not_linux (penv : ProverEnv) (proof args : String) (fs : BatchFS)
    (h : penv.platformName ≠ "Linux") :
    run_prover penv proof args fs = (Except.error linuxErrMsg, fs) := by
  unfold run_prover
  rw [run_not_linux _ _ _ h]

theorem run_prover_shape1 (penv : ProverEnv) (proof args : String) (fs : BatchFS)
    (hplat : penv.platformName = "Linux") (h1 : outRC penv.pieOutcome ≠ 0) :
    run_prover penv proof args fs =
      (Except.ok [mkStep "PIE" (runOk penv.pieOutcome none)],
        writeLog fs (parentDir proof) "PIE") := by
  unfold run_prover
  rw [hplat, run_linux]
  simp [runOk_returncode, h1]

theorem run_prover_shape2 (penv : ProverEnv) (proof args : String) (fs : BatchFS)
    (hplat : penv.platformName = "Linux") (h1 : outRC penv.pieOutcome = 0)
    (h2 : outRC penv.bootloadOutcome ≠ 0) :
    run_prover penv proof args fs =
      (Except.ok [mkStep "PIE" (runOk penv.pieOutcome none),
                  mkStep "BOOTLOAD" (runOk penv.bootloadOutcome none)],
        writeLog (writeLog fs (parentDir proof) "PIE") (parentDir proof) "BOOTLOAD") := by
  unfold run_prover
  rw [hplat, run_linux, run_linux]
  simp [runOk_returncode, h1, h2]

theorem run_prover_shape3a (penv : ProverEnv) (proof args : String) (fs : BatchFS)
    (hplat : penv.platformName = "Linux") (h1 : outRC penv.pieOutcome = 0)
    (h2 : outRC penv.bootloadOutcome = 0) (h3 : outRC penv.proveOutcome = 0) :
    run_prover penv proof args fs =
      (Except.ok [mkStep "PIE" (runOk penv.pieOutcome none),
                  mkStep "BOOTLOAD" (runOk penv.bootloadOutcome none),
                  mkStep "PROVE" (runOk penv.proveOutcome none)],
        cleanupTemps
          (writeLog (writeLog (writeLog fs (parentDir proof) "PIE") (parentDir proof) "BOOTLOAD")
            (parentDir proof) "PROVE")
          (parentDir proof)) := by
  unfold run_prover
  rw [hplat, run_linux, run_linux, run_linux]
  simp [runOk_returncode, h1, h2, h3]

theorem run_prover_shape3b (penv : ProverEnv) (proof args : String) (fs : BatchFS)
    (hplat : penv.platformName = "Linux") (h1 : outRC penv.pieOutcome = 0)
    (h2 : outRC penv.bootloadOutcome = 0) (h3 : outRC penv.proveOutcome ≠ 0) :
    run_prover penv proof args fs =
      (Except.ok [mkStep "PIE" (runOk penv.pieOutcome none),
                  mkStep "BOOTLOAD" (runOk penv.bootloadOutcome none),
                  mkStep "PROVE" (runOk penv.proveOutcome none)],
        writeLog (writeLog (writeLog fs (parentDir proof) "PIE") (parentDir proof) "BOOTLOAD")
          (parentDir proof) "PROVE") := by
  unfold run_prover
  rw [hplat, run_linux, run_linux, run_linux]
  simp [runOk_returncode, h1, h2, h3]

theorem prevLoop_nil (acc : Option String) : prevLoop acc [] = acc := rfl

theorem prevLoop_find (l : List StoreEntry) (e : StoreEntry) :
    ∀ acc : Option String, l.find? (fun a => a.hasProof) = some e →
      prevLoop acc l = some (proofPathOf e) := by
  induction l with
  | nil => intro acc h; simp at h
  | cons a rest ih =>
    intro acc h
    by_cases hp : a.hasProof = true
    · rw [List.find?_cons_of_pos _ hp] at h
      injection h with h
      subst h
      unfold prevLoop
      rw [if_pos hp]
    · rw [List.find?_cons_of_neg _ (by simpa using hp)] at h
      unfold prevLoop
      rw [if_neg hp]
      exact ih _ h

theorem prevLoop_all_missing (l : List StoreEntry) (e : StoreEntry) :
    ∀ acc : Option String, (∀ a ∈ l, a.hasProof = false) → l.getLast? = some e →
      prevLoop acc l = some (proofPathOf e) := by
  induction l with
  | nil => intro acc _ h; simp at h
  | cons a rest ih =>
    intro acc hall hl
    have hp : a.hasProof = false := hall a (List.mem_cons_self a rest)
    unfold prevLoop
    rw [if_neg (by simp [hp])]
    cases rest with
    | nil =>
      simp at hl
      subst hl
      rfl
    | cons b t =>
      rw [List.getLast?_cons_cons] at hl
      exact ih _ (fun x hx => hall x (List.mem_cons_of_mem a hx)) hl

theorem ite_gt_eq_max (a b : Nat) : (if b > a then b else a) = max a b := by
  rcases le_or_lt b a with h | h
  · rw [if_neg (by omega), Nat.max_eq_left h]
  · rw [if_pos h, Nat.max_eq_right (le_of_lt h)]

/-- The end heights that the spec says `auto_detect_start` maximises over:
directory entries matching the naming pattern that contain a finalized
proof file (the pattern's captured end height), provided the proofs
directory exists at all.  This definition follows the spec's words and is
compared against the code's `auto_detect_start`. -/
def qualEndHeight (e : StoreEntry) : Option Nat :=
  if e.isDir then
    match matchLightEnd e.name with
    | some h => if e.hasProof then some h else none
    | none => none
  else none

/-- List of qualifying end heights in enumeration order (spec side). -/
def specQualHeights (store : ProofStore) : List Nat :=
  if store.dirExists then store.entries.filterMap qualEndHeight else []

theorem adsStep_eq_max (mx : Nat) (e : StoreEntry) :
    adsStep mx e = max mx ((qualEndHeight e).getD 0) := by
  unfold adsStep qualEndHeight
  by_cases hd : e.isDir = true
  · rw [if_pos hd, if_pos hd]
    cases hm : matchLightEnd e.name with
    | none => simp
    | some h =>
      by_cases hp : e.hasProof = true
      · simp only [hp, if_true, ite_gt_eq_max, Option.getD_some]
      · simp [hp]
  · rw [if_neg hd, if_neg hd]
    simp

theorem foldl_adsStep (l : List StoreEntry) :
    ∀ a : Nat, l.foldl adsStep a = max a ((l.filterMap qualEndHeight).foldr max 0) := by
  induction l with
  | nil => intro a; simp
  | cons e rest ih =>
    intro a
    rw [List.foldl_cons, ih, adsStep_eq_max]
    cases hq : qualEndHeight e with
    | none => simp [List.filterMap_cons, hq]
    | some h => simp [List.filterMap_cons, hq, Nat.max_assoc]

theorem le_foldr_max (l : List Nat) : ∀ x ∈ l, x ≤ l.foldr max 0 := by
  induction l with
  | nil => intro x hx; simp at hx
  | cons a rest ih =>
    intro x hx
    rcases List.mem_cons.mp hx with rfl | hx
    · exact Nat.le_max_left _ _
    · exact le_trans (ih x hx) (Nat.le_max_right _ _)

theorem foldr_max_zero_or_mem (l : List Nat) :
    l.foldr max 0 = 0 ∨ l.foldr max 0 ∈ l := by
  induction l with
  | nil => exact Or.inl rfl
  | cons a rest ih =>
    rw [List.foldr_cons]
    rcases Nat.le_total a (rest.foldr max 0) with h | h
    · rw [Nat.max_eq_right h]
      rcases ih with h0 | hm
      · exact Or.inl h0
      · exact Or.inr (List.mem_cons_of_mem a hm)
    · rw [Nat.max_eq_left h]
      exact Or.inr (List.mem_cons_self a rest)

/-! ### Claim C7 -/

/-- C7: a command that does not exit within the given timeout yields exit
code −1, empty stdout, a synthetic stderr message naming the timeout
duration, `elapsed` equal to the (environment-measured) time actually spent
waiting, and no peak-memory value. -/
theorem C7_timeout_result (t : Nat) (el : Rat) :
    run "Linux" (ProcOutcome.timeout el) (some t) =
      Except.ok ⟨"", "Process timed out after " ++ toString t ++ " seconds", -1, el, none⟩ := rfl

/-! ### Claim C9 -/

/-- C9: when the process completes normally, the runner drops exactly the
stderr lines that begin with a tab or contain one of the fixed
timing/memory markers (the conditions of `isTimeLine`, source lines
116–127), and returns the remaining lines, in their original order, as the
genuine error output. -/
theorem C9_stderr_partition (out : String) (lines : List String) (code : Int)
    (el : Rat) (tmo : Option Nat) :
    run "Linux" (ProcOutcome.completed out lines code el) tmo =
      Except.ok ⟨out, joinWith "\n" (lines.filter (fun l => !isTimeLine l)), code, el,
        extractMaxMem lines⟩
    ∧ (splitStderrLines lines).2 = lines.filter (fun l => !isTimeLine l) := by
  refine ⟨?_, splitStderr_snd_eq_filter lines⟩
  rw [run_linux]
  simp only [runOk]
  rw [splitStderr_snd_eq_filter]

/-! ### Claim C6 -/

/-- C6: `auto_detect_start()` returns the maximum end height parsed from the
name suffix over all batch directories containing a finalized `proof.json`
(entries without one are ignored), and returns the origin height 0 when no
qualifying directory — or no proofs directory at all — exists.
`specQualHeights` is the spec-side description of the qualifying heights. -/
theorem C6_auto_detect_start_max (store : ProofStore) :
    auto_detect_start store = (specQualHeights store).foldr max 0
    ∧ (∀ h ∈ specQualHeights store, h ≤ auto_detect_start store)
    ∧ (auto_detect_start store = 0 ∨ auto_detect_start store ∈ specQualHeights store) := by
  have heq : auto_detect_start store = (specQualHeights store).foldr max 0 := by
    unfold auto_detect_start specQualHeights
    by_cases hd : store.dirExists = true
    · rw [if_pos hd, if_pos hd, foldl_adsStep]
      simp
    · rw [if_neg hd, if_neg hd]
      rfl
  refine ⟨heq, ?_, ?_⟩
  · intro h hh
    rw [heq]
    exact le_foldr_max _ h hh
  · rw [heq]
    exact foldr_max_zero_or_mem _

/-- Concrete store for the C6 witness: two completed batches (end heights 10
and 20), one unfinished directory (no proof), and one plain file. -/
def c6store : ProofStore :=
  ⟨true, [⟨"light_0_to_10", true, true⟩, ⟨"light_10_to_30", true, false⟩,
          ⟨"light_10_to_20", true, true⟩, ⟨"batch.json", false, true⟩]⟩

theorem C6_witness : (20 : Nat) ≤ auto_detect_start c6store :=
  (C6_auto_detect_start_max c6store).2.1 20 (by decide)

/-! ### Claim C8 -/

/-- C8: any exception raised while preparing or running the batch — data
generation, argument generation, or the pipeline (including the platform
check and the final list indexing) — is caught at the Batch Job boundary
and converted to the boolean failure `false`; a normally returning body's
boolean passes through unchanged, so no exception escapes `prove_batch`
(whose Lean type is accordingly total). -/
theorem C8_exceptions_to_false (env : BatchEnv) (height bstep : Nat) (fs : BatchFS) :
    (∀ e, (prove_batchFS env height bstep fs).1 = Except.error e →
      (prove_batch env height bstep fs).1 = false)
    ∧ (∀ b, (prove_batchFS env height bstep fs).1 = Except.ok b →
      (prove_batch env height bstep fs).1 = b) := by
  rcases h : prove_batchFS env height bstep fs with ⟨r, fs'⟩
  cases r with
  | error e => simp [prove_batch, h]
  | ok b => simp [prove_batch, h]

/-- Concrete environment for the C8 witness: `generate_data` raises. -/
def c8env : BatchEnv :=
  ⟨⟨"Linux", .completed "" [] 0 0, .completed "" [] 0 0, .completed "" [] 0 0⟩,
   ⟨true, []⟩, Except.error "generate_data failure", fun _ => Except.ok ()⟩

/-- File system for the C8 witness. -/
def c8fs : BatchFS := ⟨[], [], Except.ok ⟨none, none⟩⟩

theorem C8_witness : (prove_batch c8env 3 2 c8fs).1 = false :=
  (C8_exceptions_to_false c8env 3 2 c8fs).1 "generate_data failure" rfl

/-! ### Claim C5 -/

/-- C5: the three steps run in the fixed order PIE (the spec's EXECUTE
step), BOOTLOAD, PROVE, each gated on the previous step's exit code being
0; on a non-zero exit the driver returns the partial list immediately, so
in particular a first-step failure yields a list of length exactly 1 and
the later steps are never invoked. -/
theorem C5_step_short_circuit (penv : ProverEnv) (proof args : String) (fs : BatchFS)
    (hplat : penv.platformName = "Linux") :
    (outRC penv.pieOutcome ≠ 0 →
      (run_prover penv proof args fs).1 =
        Except.ok [mkStep "PIE" (runOk penv.pieOutcome none)])
    ∧ (outRC penv.pieOutcome = 0 → outRC penv.bootloadOutcome ≠ 0 →
      (run_prover penv proof args fs).1 =
        Except.ok [mkStep "PIE" (runOk penv.pieOutcome none),
                   mkStep "BOOTLOAD" (runOk penv.bootloadOutcome none)])
    ∧ (outRC penv.pieOutcome = 0 → outRC penv.bootloadOutcome = 0 →
      (run_prover penv proof args fs).1 =
        Except.ok [mkStep "PIE" (runOk penv.pieOutcome none),
                   mkStep "BOOTLOAD" (runOk penv.bootloadOutcome none),
                   mkStep "PROVE" (runOk penv.proveOutcome none)]) := by
  refine ⟨?_, ?_, ?_⟩
  · intro h1
    rw [run_prover_shape1 penv proof args fs hplat h1]
  · intro h1 h2
    rw [run_prover_shape2 penv proof args fs hplat h1 h2]
  · intro h1 h2
    by_cases h3 : outRC penv.proveOutcome = 0
    · rw [run_prover_shape3a penv proof args fs hplat h1 h2 h3]
    · rw [run_prover_shape3b penv proof args fs hplat h1 h2 h3]

/-- Pipeline environment for the C5 witness: the first step exits with 1. -/
def c5penv : ProverEnv :=
  ⟨"Linux", .completed "" [] 1 0, .completed "" [] 0 0, .completed "" [] 0 0⟩

/-- File system for the C5 witness. -/
def c5fs : BatchFS := ⟨[], [], Except.ok ⟨none, none⟩⟩

theorem C5_witness :
    (run_prover c5penv ".proofs/b/proof.json" ".proofs/b/arguments.json" c5fs).1 =
      Except.ok [mkStep "PIE" (runOk (ProcOutcome.completed "" [] 1 0) none)] :=
  (C5_step_short_circuit c5penv ".proofs/b/proof.json" ".proofs/b/arguments.json" c5fs rfl).1
    (by decide)

/-! ### Claim C4 -/

/-- Batch behaviour for the C4 counterexample: only height 10 fails. -/
def c4rb : Nat → Bool := fun h => decide (h ≠ 10)

/-- C4 counterexample: running heights 0, 10, 20 where the batch at height
10 fails, the orchestrator attempts 0 then 10 and stops (20 is never
attempted) with an internal processed count of 1, but produces no summary
message at all on the failure path — refuting the claim that a
"processed N of M" summary is reported on failure. -/
theorem C4_counterexample :
    (mainRun c4rb 0 30 10).attempted = [0, 10]
    ∧ (mainRun c4rb 0 30 10).processed = 1
    ∧ (mainRun c4rb 0 30 10).failedAt = some 10
    ∧ (mainRun c4rb 0 30 10).summary = none := by decide

/-- C4 (amended): for a run over batches `[b0, b1, b2]` where `b0` succeeds
and `b1` fails, the orchestrator attempts `b0`, then `b1`, then stops — `b2`
is never attempted and the internal processed count is 1 — but on failure it
logs only the failing height; no processed-count summary is produced (the
"All N jobs" summary exists only on the all-success path). -/
theorem C4_fail_stop (rb : Nat → Bool) (b0 b1 b2 : Nat)
    (h0 : rb b0 = true) (h1 : rb b1 = false) :
    mainLoop rb [b0, b1, b2] 0 = ⟨[b0, b1], 1, some b1, none⟩ := by
  simp [mainLoop, h0, h1]

/-- Batch behaviour for the C4 witness: only height 0 succeeds. -/
def c4wrb : Nat → Bool := fun h => decide (h = 0)

theorem C4_witness : mainLoop c4wrb [0, 7, 14] 0 = ⟨[0, 7], 1, some 7, none⟩ :=
  C4_fail_stop c4wrb 0 7 14 rfl rfl

/-! ### Claim C2 -/

/-- Environment for the C2 counterexample: a non-Linux platform with all
external generators succeeding. -/
def c2env : BatchEnv :=
  ⟨⟨"Darwin", .completed "" [] 0 0, .completed "" [] 0 0, .completed "" [] 0 0⟩,
   ⟨true, []⟩, Except.ok (), fun _ => Except.ok ()⟩

/-- File system for the C2 counterexample. -/
def c2fs : BatchFS := ⟨[], [], Except.ok ⟨none, none⟩⟩

/-- C2 counterexample: on a non-Linux platform the step runner's
RuntimeError is indeed raised inside the batch body, but `prove_batch`'s
blanket `except Exception` catches it and the batch returns `false` — the
error IS caught at the Batch Job level, contradicting the claim that it
escapes uncaught. -/
theorem C2_counterexample :
    (prove_batchFS c2env 3 2 c2fs).1 = Except.error linuxErrMsg
    ∧ (prove_batch c2env 3 2 c2fs).1 = false := ⟨rfl, rfl⟩

/-- C2 (amended): when the timing/memory facility is unavailable the step
runner raises a RuntimeError; the raise propagates out of the pipeline
driver into the batch body, where the Batch Job boundary catches it like
any other exception and the batch returns `false` — the run then halts via
the orchestrator's ordinary failure path, not via an uncaught exception. -/
theorem C2_runtime_error_caught (env : BatchEnv) (height bstep : Nat) (fs : BatchFS)
    (hplat : env.penv.platformName ≠ "Linux")
    (hd : env.gen_data = Except.ok ())
    (ha : ∀ p, env.gen_args p = Except.ok ()) :
    (prove_batchFS env height bstep fs).1 = Except.error linuxErrMsg
    ∧ (prove_batch env height bstep fs).1 = false := by
  have hrp : ∀ pr ar f, run_prover env.penv pr ar f = (Except.error linuxErrMsg, f) :=
    fun pr ar f => run_prover_not_linux env.penv pr ar f hplat
  have hfs : prove_batchFS env height bstep fs =
      (Except.error linuxErrMsg,
        addFile (addFile fs (batchDirName height bstep ++ "/batch.json"))
          (batchDirName height bstep ++ "/arguments.json")) := by
    simp only [prove_batchFS, hd, ha, hrp]
  constructor
  · rw [hfs]
  · unfold prove_batch
    rw [hfs]

theorem C2_witness : (prove_batch c2env 1 1 c2fs).1 = false :=
  (C2_runtime_error_caught c2env 1 1 c2fs (by decide) rfl (fun _ => rfl)).2

/-! ### Claim C1 -/

/-- Store for the C1 counterexample: exactly one matching directory, whose
`proof.json` does not exist. -/
def c1store : ProofStore := ⟨true, [⟨"light_0_to_5", true, false⟩]⟩

/-- C1 counterexample: with one enumerated glob match `light_0_to_5` whose
finalized proof file does not exist, the resolver for height 5 yields that
directory's (dangling) proof path instead of the `none` the claim
requires. -/
theorem C1_counterexample :
    find_previous_proof c1store 5 = some ".proofs/light_0_to_5/proof.json"
    ∧ c1store.entries.all (fun e => !e.hasProof) = true := by decide

/-- C1 (amended): for target height `H > 0` the resolver returns the proof
path of the first enumerated glob match whose `proof.json` exists; when
matches exist but none has a finalized proof it returns the proof path of
the LAST enumerated match (a path to a non-existent file), and only when no
directory matches at all is the result `none`. -/
theorem C1_first_match_or_last (store : ProofStore) (height : Nat) (hpos : 0 < height) :
    (store.entries.filter (fun e => globMatch height e.name) = [] →
      find_previous_proof store height = none)
    ∧ (∀ e, (store.entries.filter (fun a => globMatch height a.name)).find?
          (fun a => a.hasProof) = some e →
      find_previous_proof store height = some (proofPathOf e))
    ∧ (∀ e, (∀ a ∈ store.entries.filter (fun a => globMatch height a.name),
          a.hasProof = false) →
      (store.entries.filter (fun a => globMatch height a.name)).getLast? = some e →
      find_previous_proof store height = some (proofPathOf e)) := by
  unfold find_previous_proof
  rw [if_pos hpos]
  refine ⟨?_, ?_, ?_⟩
  · intro h
    rw [h]
    rfl
  · intro e h
    exact prevLoop_find _ e none h
  · intro e hall hl
    exact prevLoop_all_missing _ e none hall hl

/-- Store for the C1 witness: the second enumerated match is the first with
an existing finalized proof. -/
def c1wstore : ProofStore :=
  ⟨true, [⟨"light_0_to_7", true, false⟩, ⟨"light_2_to_7", true, true⟩,
          ⟨"light_0_to_9", true, true⟩]⟩

theorem C1_witness :
    find_previous_proof c1wstore 7 = some ".proofs/light_2_to_7/proof.json" := by
  have h := (C1_first_match_or_last c1wstore 7 (by decide)).2.1
    ⟨"light_2_to_7", true, true⟩ (by decide)
  simpa [proofPathOf] using h

/-! ### Claim C3 -/

/-- Environment for the C3 counterexample: all three steps exit 0. -/
def c3env : BatchEnv :=
  ⟨⟨"Linux", .completed "" [] 0 0, .completed "" [] 0 0, .completed "" [] 0 0⟩,
   ⟨true, []⟩, Except.ok (), fun _ => Except.ok ()⟩

/-- File system for the C3 counterexample. -/
def c3fs : BatchFS := ⟨[], [], Except.ok ⟨none, none⟩⟩

/-- C3 counterexample: a fully successful batch (the PROVE step exits 0)
leaves the argument file `arguments.json` on disk — the argument file never
appears in the cleanup list, refuting the claim that it is deleted exactly
when PROVE exits with code 0. -/
theorem C3_counterexample :
    (prove_batchFS c3env 10 5 c3fs).1 = Except.ok true
    ∧ fileExists (prove_batch c3env 10 5 c3fs).2
        ".proofs/light_10_to_15/arguments.json" = true :=
  ⟨rfl, by decide⟩

theorem run_prover_success_absent (penv : ProverEnv) (proof args tp mp : String)
    (fs : BatchFS)
    (hplat : penv.platformName = "Linux")
    (hpr : fs.privParse = Except.ok ⟨some tp, some mp⟩)
    (hprivex : fileExists fs (priv_json_file (parentDir proof)) = true)
    (h1 : outRC penv.pieOutcome = 0) (h2 : outRC penv.bootloadOutcome = 0)
    (h3 : outRC penv.proveOutcome = 0) :
    ∀ x ∈ [pie_file (parentDir proof), pub_json_file (parentDir proof), tp, mp,
        priv_json_file (parentDir proof)],
      fileExists (run_prover penv proof args fs).2 x = false := by
  rw [run_prover_shape3a penv proof args fs hplat h1 h2 h3]
  have hpr3 : (writeLog (writeLog (writeLog fs (parentDir proof) "PIE") (parentDir proof)
      "BOOTLOAD") (parentDir proof) "PROVE").privParse = Except.ok ⟨some tp, some mp⟩ := by
    rw [writeLog_privParse, writeLog_privParse, writeLog_privParse, hpr]
  have hex3 : fileExists (writeLog (writeLog (writeLog fs (parentDir proof) "PIE")
      (parentDir proof) "BOOTLOAD") (parentDir proof) "PROVE")
      (priv_json_file (parentDir proof)) = true :=
    fileExists_writeLog_of _ _ _ _ (fileExists_writeLog_of _ _ _ _
      (fileExists_writeLog_of _ _ _ _ hprivex))
  rw [cleanupTemps_parse_ok _ _ tp mp hpr3 hex3]
  intro x hx
  cases hc : fileExists ([pie_file (parentDir proof), pub_json_file (parentDir proof), tp,
      mp, priv_json_file (parentDir proof)].foldl condRemove
      (writeLog (writeLog (writeLog fs (parentDir proof) "PIE") (parentDir proof)
        "BOOTLOAD") (parentDir proof) "PROVE")) x with
  | false => rfl
  | true => exact absurd hx ((fileExists_foldl_condRemove _ _ _).mp hc).2

theorem run_prover_success_keeps (penv : ProverEnv) (proof args tp mp : String)
    (fs : BatchFS)
    (hplat : penv.platformName = "Linux")
    (hpr : fs.privParse = Except.ok ⟨some tp, some mp⟩)
    (hprivex : fileExists fs (priv_json_file (parentDir proof)) = true)
    (h1 : outRC penv.pieOutcome = 0) (h2 : outRC penv.bootloadOutcome = 0)
    (h3 : outRC penv.proveOutcome = 0) :
    ∀ x, fileExists fs x = true →
      x ∉ [pie_file (parentDir proof), pub_json_file (parentDir proof), tp, mp,
        priv_json_file (parentDir proof)] →
      fileExists (run_prover penv proof args fs).2 x = true := by
  rw [run_prover_shape3a penv proof args fs hplat h1 h2 h3]
  have hpr3 : (writeLog (writeLog (writeLog fs (parentDir proof) "PIE") (parentDir proof)
      "BOOTLOAD") (parentDir proof) "PROVE").privParse = Except.ok ⟨some tp, some mp⟩ := by
    rw [writeLog_privParse, writeLog_privParse, writeLog_privParse, hpr]
  have hex3 : fileExists (writeLog (writeLog (writeLog fs (parentDir proof) "PIE")
      (parentDir proof) "BOOTLOAD") (parentDir proof) "PROVE")
      (priv_json_file (parentDir proof)) = true :=
    fileExists_writeLog_of _ _ _ _ (fileExists_writeLog_of _ _ _ _
      (fileExists_writeLog_of _ _ _ _ hprivex))
  rw [cleanupTemps_parse_ok _ _ tp mp hpr3 hex3]
  intro x hx hnx
  exact (fileExists_foldl_condRemove _ _ _).mpr
    ⟨fileExists_writeLog_of _ _ _ _ (fileExists_writeLog_of _ _ _ _
      (fileExists_writeLog_of _ _ _ _ hx)), hnx⟩

theorem run_prover_failure_keeps (penv : ProverEnv) (proof args : String) (fs : BatchFS)
    (hplat : penv.platformName = "Linux")
    (hne : ¬(outRC penv.pieOutcome = 0 ∧ outRC penv.bootloadOutcome = 0
      ∧ outRC penv.proveOutcome = 0)) :
    ∀ x, fileExists fs x = true → fileExists (run_prover penv proof args fs).2 x = true := by
  intro x hx
  by_cases h1 : outRC penv.pieOutcome = 0
  · by_cases h2 : outRC penv.bootloadOutcome = 0
    · have h3 : outRC penv.proveOutcome ≠ 0 := fun h3 => hne ⟨h1, h2, h3⟩
      rw [run_prover_shape3b penv proof args fs hplat h1 h2 h3]
      exact fileExists_writeLog_of _ _ _ _
        (fileExists_writeLog_of _ _ _ _ (fileExists_writeLog_of _ _ _ _ hx))
    · rw [run_prover_shape2 penv proof args fs hplat h1 h2]
      exact fileExists_writeLog_of _ _ _ _ (fileExists_writeLog_of _ _ _ _ hx)
  · rw [run_prover_shape1 penv proof args fs hplat h1]
    exact fileExists_writeLog_of _ _ _ _ hx

/-- C3 (amended): when the private-input file exists and parses (recording
trace path `tp` and memory path `mp`), a batch whose PROVE step exits 0
afterwards lacks the pie file, the public-input file, the private-input
file, `tp` and `mp`, while a pre-existing argument file and final proof
file survive; and if any step fails, cleanup never runs and every
pre-existing file — intermediates included — still exists afterwards.  The
argument file, unlike in the original claim, is never deleted. -/
theorem C3_cleanup_gating (penv : ProverEnv) (proof args tp mp : String) (fs : BatchFS)
    (hplat : penv.platformName = "Linux")
    (hpr : fs.privParse = Except.ok ⟨some tp, some mp⟩)
    (hprivex : fileExists fs (priv_json_file (parentDir proof)) = true)
    (hargs : args ∉ [pie_file (parentDir proof), pub_json_file (parentDir proof), tp, mp,
                     priv_json_file (parentDir proof)])
    (hproof : proof ∉ [pie_file (parentDir proof), pub_json_file (parentDir proof), tp, mp,
                       priv_json_file (parentDir proof)]) :
    (outRC penv.pieOutcome = 0 → outRC penv.bootloadOutcome = 0 → outRC penv.proveOutcome = 0 →
      fileExists (run_prover penv proof args fs).2 (pie_file (parentDir proof)) = false
      ∧ fileExists (run_prover penv proof args fs).2 (pub_json_file (parentDir proof)) = false
      ∧ fileExists (run_prover penv proof args fs).2 (priv_json_file (parentDir proof)) = false
      ∧ fileExists (run_prover penv proof args fs).2 tp = false
      ∧ fileExists (run_prover penv proof args fs).2 mp = false
      ∧ (fileExists fs args = true → fileExists (run_prover penv proof args fs).2 args = true)
      ∧ (fileExists fs proof = true → fileExists (run_prover penv proof args fs).2 proof = true))
    ∧ (¬(outRC penv.pieOutcome = 0 ∧ outRC penv.bootloadOutcome = 0
          ∧ outRC penv.proveOutcome = 0) →
      ∀ x, fileExists fs x = true → fileExists (run_prover penv proof args fs).2 x = true) := by
  constructor
  · intro h1 h2 h3
    have habs := run_prover_success_absent penv proof args tp mp fs hplat hpr hprivex h1 h2 h3
    have hkeep := run_prover_success_keeps penv proof args tp mp fs hplat hpr hprivex h1 h2 h3
    exact ⟨habs _ (List.mem_cons_self _ _),
      habs _ (List.mem_cons_of_mem _ (List.mem_cons_self _ _)),
      habs _ (List.mem_cons_of_mem _ (List.mem_cons_of_mem _ (List.mem_cons_of_mem _
        (List.mem_cons_of_mem _ (List.mem_cons_self _ _))))),
      habs _ (List.mem_cons_of_mem _ (List.mem_cons_of_mem _ (List.mem_cons_self _ _))),
      habs _ (List.mem_cons_of_mem _ (List.mem_cons_of_mem _ (List.mem_cons_of_mem _
        (List.mem_cons_self _ _)))),
      fun hx => hkeep args hx hargs, fun hx => hkeep proof hx hproof⟩
  · exact run_prover_failure_keeps penv proof args fs hplat

/-- Pipeline environment for the C3 witness: all three steps exit 0. -/
def c3wpenv : ProverEnv :=
  ⟨"Linux", .completed "" [] 0 0, .completed "" [] 0 0, .completed "" [] 0 0⟩

/-- File system for the C3 witness: the intermediates, the recorded
trace/memory files, and the argument file all exist. -/
def c3wfs : BatchFS :=
  ⟨[".proofs/b/pie.cairo_pie.zip", ".proofs/b/pub.json", ".proofs/b/priv.json",
    "trace.bin", "memory.bin", ".proofs/b/arguments.json"],
   [], Except.ok ⟨some "trace.bin", some "memory.bin"⟩⟩

theorem C3_witness :
    fileExists (run_prover c3wpenv ".proofs/b/proof.json" ".proofs/b/arguments.json" c3wfs).2
      (pie_file (parentDir ".proofs/b/proof.json")) = false :=
  ((C3_cleanup_gating c3wpenv ".proofs/b/proof.json" ".proofs/b/arguments.json"
      "trace.bin" "memory.bin" c3wfs rfl rfl (by decide) (by decide) (by decide)).1
    rfl rfl rfl).1

/-! ### Claim C10 -/

theorem prove_batch_result (env : BatchEnv) (height bstep : Nat) (fs : BatchFS)
    (hplat : env.penv.platformName = "Linux")
    (hd : env.gen_data = Except.ok ())
    (ha : ∀ p, env.gen_args p = Except.ok ()) :
    (prove_batch env height bstep fs).1 =
      (decide (outRC env.penv.pieOutcome = 0) && decide (outRC env.penv.bootloadOutcome = 0)
        && decide (outRC env.penv.proveOutcome = 0)) := by
  by_cases h1 : outRC env.penv.pieOutcome = 0
  · by_cases h2 : outRC env.penv.bootloadOutcome = 0
    · by_cases h3 : outRC env.penv.proveOutcome = 0
      · have hrp : ∀ pr ar f, run_prover env.penv pr ar f =
            (Except.ok [mkStep "PIE" (runOk env.penv.pieOutcome none),
                        mkStep "BOOTLOAD" (runOk env.penv.bootloadOutcome none),
                        mkStep "PROVE" (runOk env.penv.proveOutcome none)],
              cleanupTemps (writeLog (writeLog (writeLog f (parentDir pr) "PIE") (parentDir pr)
                "BOOTLOAD") (parentDir pr) "PROVE") (parentDir pr)) :=
          fun pr ar f => run_prover_shape3a env.penv pr ar f hplat h1 h2 h3
        simp [prove_batch, prove_batchFS, hd, ha, hrp, mkStep_returncode, runOk_returncode,
          h1, h2, h3]
      · have hrp : ∀ pr ar f, run_prover env.penv pr ar f =
            (Except.ok [mkStep "PIE" (runOk env.penv.pieOutcome none),
                        mkStep "BOOTLOAD" (runOk env.penv.bootloadOutcome none),
                        mkStep "PROVE" (runOk env.penv.proveOutcome none)],
              writeLog (writeLog (writeLog f (parentDir pr) "PIE") (parentDir pr)
                "BOOTLOAD") (parentDir pr) "PROVE") :=
          fun pr ar f => run_prover_shape3b env.penv pr ar f hplat h1 h2 h3
        simp [prove_batch, prove_batchFS, hd, ha, hrp, mkStep_returncode, runOk_returncode,
          h1, h2, h3]
    · have hrp : ∀ pr ar f, run_prover env.penv pr ar f =
          (Except.ok [mkStep "PIE" (runOk env.penv.pieOutcome none),
                      mkStep "BOOTLOAD" (runOk env.penv.bootloadOutcome none)],
            writeLog (writeLog f (parentDir pr) "PIE") (parentDir pr) "BOOTLOAD") :=
        fun pr ar f => run_prover_shape2 env.penv pr ar f hplat h1 h2
      simp [prove_batch, prove_batchFS, hd, ha, hrp, mkStep_returncode, runOk_returncode,
        h1, h2]
  · have hrp : ∀ pr ar f, run_prover env.penv pr ar f =
        (Except.ok [mkStep "PIE" (runOk env.penv.pieOutcome none)],
          writeLog f (parentDir pr) "PIE") :=
      fun pr ar f => run_prover_shape1 env.penv pr ar f hplat h1
    simp [prove_batch, prove_batchFS, hd, ha, hrp, mkStep_returncode, runOk_returncode, h1]

theorem run_prover_invariants (penv : ProverEnv) (proof args : String) (fsp : BatchFS)
    (hplat : penv.platformName = "Linux") :
    ∃ steps : List StepInfo,
      (run_prover penv proof args fsp).1 = Except.ok steps
      ∧ steps ≠ []
      ∧ (steps.map StepInfo.step = ["PIE"]
         ∨ steps.map StepInfo.step = ["PIE", "BOOTLOAD"]
         ∨ steps.map StepInfo.step = ["PIE", "BOOTLOAD", "PROVE"])
      ∧ (steps.dropLast.all (fun s => decide (s.returncode = 0))) = true
      ∧ (run_prover penv proof args fsp).2.logs =
          fsp.logs ++ steps.map (fun s => logName (parentDir proof) s.step) := by
  by_cases h1 : outRC penv.pieOutcome = 0
  · by_cases h2 : outRC penv.bootloadOutcome = 0
    · by_cases h3 : outRC penv.proveOutcome = 0
      · refine ⟨[mkStep "PIE" (runOk penv.pieOutcome none),
          mkStep "BOOTLOAD" (runOk penv.bootloadOutcome none),
          mkStep "PROVE" (runOk penv.proveOutcome none)], ?_, ?_, ?_, ?_, ?_⟩
        · rw [run_prover_shape3a penv proof args fsp hplat h1 h2 h3]
        · simp
        · simp [mkStep_step]
        · simp [mkStep_returncode, runOk_returncode, h1, h2]
        · rw [run_prover_shape3a penv proof args fsp hplat h1 h2 h3]
          simp [cleanupTemps_logs, writeLog_logs, mkStep_step]
      · refine ⟨[mkStep "PIE" (runOk penv.pieOutcome none),
          mkStep "BOOTLOAD" (runOk penv.bootloadOutcome none),
          mkStep "PROVE" (runOk penv.proveOutcome none)], ?_, ?_, ?_, ?_, ?_⟩
        · rw [run_prover_shape3b penv proof args fsp hplat h1 h2 h3]
        · simp
        · simp [mkStep_step]
        · simp [mkStep_returncode, runOk_returncode, h1, h2]
        · rw [run_prover_shape3b penv proof args fsp hplat h1 h2 h3]
          simp [writeLog_logs, mkStep_step]
    · refine ⟨[mkStep "PIE" (runOk penv.pieOutcome none),
        mkStep "BOOTLOAD" (runOk penv.bootloadOutcome none)], ?_, ?_, ?_, ?_, ?_⟩
      · rw [run_prover_shape2 penv proof args fsp hplat h1 h2]
      · simp
      · simp [mkStep_step]
      · simp [mkStep_returncode, runOk_returncode, h1]
      · rw [run_prover_shape2 penv proof args fsp hplat h1 h2]
        simp [writeLog_logs, mkStep_step]
  · refine ⟨[mkStep "PIE" (runOk penv.pieOutcome none)], ?_, ?_, ?_, ?_, ?_⟩
    · rw [run_prover_shape1 penv proof args fsp hplat h1]
    · simp
    · simp [mkStep_step]
    · simp
    · rw [run_prover_shape1 penv proof args fsp hplat h1]
      simp [writeLog_logs, mkStep_step]

/-- C10: for every Linux pipeline invocation the returned step list is
non-empty, its step names form a prefix of [PIE, BOOTLOAD, PROVE] in that
order, every element except possibly the last has exit code 0, and one
per-step log write is journalled per element (so the batch job's read of
the last element never fails); and under an otherwise exception-free
environment the batch job returns true exactly when all three steps exit
with code 0 — equivalently, when the last element is the PROVE step with
exit code 0. -/
theorem C10_pipeline_invariants (penv : ProverEnv) (proof args : String) (fsp : BatchFS)
    (env : BatchEnv) (height bstep : Nat) (fs : BatchFS)
    (hplat : penv.platformName = "Linux")
    (hplat2 : env.penv.platformName = "Linux")
    (hd : env.gen_data = Except.ok ())
    (ha : ∀ p, env.gen_args p = Except.ok ()) :
    (∃ steps : List StepInfo,
      (run_prover penv proof args fsp).1 = Except.ok steps
      ∧ steps ≠ []
      ∧ (steps.map StepInfo.step = ["PIE"]
         ∨ steps.map StepInfo.step = ["PIE", "BOOTLOAD"]
         ∨ steps.map StepInfo.step = ["PIE", "BOOTLOAD", "PROVE"])
      ∧ (steps.dropLast.all (fun s => decide (s.returncode = 0))) = true
      ∧ (run_prover penv proof args fsp).2.logs =
          fsp.logs ++ steps.map (fun s => logName (parentDir proof) s.step))
    ∧ ((prove_batch env height bstep fs).1 = true ↔
        outRC env.penv.pieOutcome = 0 ∧ outRC env.penv.bootloadOutcome = 0
          ∧ outRC env.penv.proveOutcome = 0) := by
  refine ⟨run_prover_invariants penv proof args fsp hplat, ?_⟩
  rw [prove_batch_result env height bstep fs hplat2 hd ha]
  simp [Bool.and_eq_true, decide_eq_true_eq, and_assoc]

/-- Environment for the C10 witness: everything succeeds. -/
def c10env : BatchEnv :=
  ⟨⟨"Linux", .completed "" [] 0 0, .completed "" [] 0 0, .completed "" [] 0 0⟩,
   ⟨true, []⟩, Except.ok (), fun _ => Except.ok ()⟩

/-- File system for the C10 witness. -/
def c10fs : BatchFS := ⟨[], [], Except.ok ⟨none, none⟩⟩

theorem C10_witness : (prove_batch c10env 0 10 c10fs).1 = true :=
  (C10_pipeline_invariants c10env.penv "p/proof.json" "a.json" c10fs c10env 0 10 c10fs
    rfl rfl rfl (fun _ => rfl)).2.mpr ⟨rfl, rfl, rfl⟩

end ProvePow
